import Mathlib

/-!
Verification development for the Halo Mastra provider adapter
(src/features/common/ai/providers/mastra.js).

The JavaScript source is shallowly embedded below.  Module-level mutable
variables become an explicit state record (MState) threaded through the
operations; `async` functions that can `throw` become functions into `Except`;
external effects (dynamic module import, MCP tool fetching, `Date.now()`, the
agent generation call, the `fetch` in key validation) are supplied by an
explicit environment record (Env).  JavaScript truthiness tests are modelled
on a small JSON value type.
-/

namespace Halo

/-- A JSON-like value, modelling the dynamic values that appear as tool-call
results in a Mastra generation response.  Numbers are modelled as integers
(floating point NaN is out of scope of every claim considered here). -/
inductive JsonVal where
  | null : JsonVal
  | bool (b : Bool) : JsonVal
  | num (n : Int) : JsonVal
  | str (s : String) : JsonVal
  | arr (xs : List JsonVal) : JsonVal
  | obj (kvs : List (String × JsonVal)) : JsonVal

/-- JavaScript truthiness of a JSON value: `null`, `false`, `0` and the empty
string are falsy; arrays and objects are always truthy. -/
def jsTruthy : JsonVal → Bool
  | .null => false
  | .bool b => b
  | .num n => n != 0
  | .str s => s != ""
  | .arr _ => true
  | .obj _ => true

/-- Escape of one character inside a JSON string literal, as performed by
`JSON.stringify`.  Control characters other than the common ones are left
unescaped in this model; no claim inspects escaped text. -/
def escapeJsonChar (c : Char) : String :=
  if c = '"' then "\\\""
  else if c = '\\' then "\\\\"
  else if c = '\n' then "\\n"
  else if c = '\r' then "\\r"
  else if c = '\t' then "\\t"
  else String.singleton c

def escapeJson (s : String) : String :=
  String.join (s.data.map escapeJsonChar)

/-- Compact rendering of a JSON value, modelling `JSON.stringify`.  The source
passes an indentation argument of 2; the produced whitespace is irrelevant to
every claim, so this model renders compactly. -/
def stringifyJson : JsonVal → String
  | .null => "null"
  | .bool true => "true"
  | .bool false => "false"
  | .num n => toString n
  | .str s => "\"" ++ escapeJson s ++ "\""
  | .arr xs => "[" ++ String.intercalate "," (xs.attach.map (fun x => stringifyJson x.1)) ++ "]"
  | .obj kvs => "\x7b" ++ String.intercalate ","
      (kvs.attach.map (fun kv => "\"" ++ escapeJson kv.1.1 ++ "\":" ++ stringifyJson kv.1.2)) ++ "\x7d"
decreasing_by
  · have := List.sizeOf_lt_of_mem x.2
    simp only [JsonVal.arr.sizeOf_spec]
    omega
  · obtain ⟨⟨k, v⟩, hmem⟩ := kv
    have := List.sizeOf_lt_of_mem hmem
    simp only [JsonVal.obj.sizeOf_spec, Prod.mk.sizeOf_spec] at *
    omega

/-- One tool call record inside a generation step (mastra.js line 310).
`name` and `result` may each be absent (`undefined` in JavaScript). -/
structure ToolCall where
  name : Option String
  result : Option JsonVal

/-- One execution step of a generation response (mastra.js line 308).
`toolCalls` is absent or a list. -/
structure Step where
  toolCalls : Option (List ToolCall)

/-- The Mastra generation response as consumed by
`createStreamFromMastraResponse`: a final text and a list of steps, each of
which may be absent. -/
structure GenerationResult where
  text : Option String
  steps : Option (List Step)

/-- A stream chunk.  Every chunk built by the source has the single shape
`\x7bchoices:[\x7bdelta:\x7bcontent: <string>\x7d\x7d]\x7d`, so only the
content string is recorded. -/
structure Chunk where
  content : String

/-- The text-splitting loop of mastra.js lines 292-300:
`for (let i = 0; i < text.length; i += 50) push(text.slice(i, i + 50))`,
expressed recursively: the first 50 characters, then the chunks of the rest. -/
def chunkText (l : List Char) : List (List Char) :=
  if l = [] then []
  else l.take 50 :: chunkText (l.drop 50)
termination_by l.length
decreasing_by
  simp only [List.length_drop]
  have : l.length ≠ 0 := by
    intro h0
    exact (by assumption : ¬ l = []) (List.eq_nil_of_length_eq_zero h0)
  omega

/-- The content chunks for the response text (mastra.js lines 289-301).  The
source guards with JavaScript truthiness of `response.text`, so an absent or
empty text yields no chunks. -/
def textChunks (r : GenerationResult) : List Chunk :=
  match r.text with
  | none => []
  | some t => if t = "" then [] else (chunkText t.data).map (fun cs => Chunk.mk (String.mk cs))

/-- The condition of mastra.js line 312:
`toolCall.name && toolCall.result && toolCall.result !== undefined`.
Both tests are JavaScript truthiness; the trailing `!== undefined` check is
redundant after the truthiness test and adds nothing. -/
def toolCallQualifies (tc : ToolCall) : Bool :=
  (match tc.name with
   | some s => s != ""
   | none => false) &&
  (match tc.result with
   | some v => jsTruthy v
   | none => false)

/-- The qualifying tool calls of one step, in order (mastra.js lines 309-317). -/
def stepQualifying (st : Step) : List ToolCall :=
  (st.toolCalls.getD []).filter (fun tc => toolCallQualifies tc)

/-- All qualifying tool calls of all steps, in iteration order. -/
def qualifyingToolCalls (steps : List Step) : List ToolCall :=
  steps.flatMap stepQualifying

/-- The `hasValidToolResults` flag of mastra.js line 305: set exactly when the
nested loops found at least one qualifying tool call. -/
def hasValidToolResults (steps : List Step) : Bool :=
  !(qualifyingToolCalls steps).isEmpty

/-- One summary line (mastra.js line 313).  The defaults in `getD` are never
reached: a qualifying tool call has both fields present. -/
def toolCallLine (tc : ToolCall) : String :=
  "\n- " ++ tc.name.getD "" ++ ": " ++ stringifyJson (tc.result.getD .null) ++ "\n"

/-- The accumulated summary text (mastra.js lines 306-318). -/
def toolSummaryText (steps : List Step) : String :=
  "\n\n**Learning Tools Used:**\n" ++ String.join ((qualifyingToolCalls steps).map toolCallLine)

/-- The tool-summary chunks appended by mastra.js lines 304-330: one chunk when
`response.steps` is a nonempty list containing a qualifying tool call,
otherwise none. -/
def toolSummaryChunks (r : GenerationResult) : List Chunk :=
  match r.steps with
  | none => []
  | some steps =>
      if decide (steps.length > 0) && hasValidToolResults steps
      then [Chunk.mk (toolSummaryText steps)]
      else []

/-- The full chunk list built by `createStreamFromMastraResponse` before
delivery (mastra.js lines 286-339): text chunks, then the optional tool
summary, then exactly one final empty-content chunk. -/
def createChunks (r : GenerationResult) : List Chunk :=
  textChunks r ++ toolSummaryChunks r ++ [Chunk.mk ""]

/-- Encoding of a chunk by `JSON.stringify` (mastra.js line 351). -/
def encodeChunk (c : Chunk) : String :=
  "\x7b\"choices\":[\x7b\"delta\":\x7b\"content\":\"" ++ escapeJson c.content ++ "\"\x7d\x7d]\x7d"

/-- The wire line for one chunk: `data: <json>` followed by a blank line. -/
def sseLine (c : Chunk) : String :=
  "data: " ++ encodeChunk c ++ "\n\n"

/-- The terminal sentinel line of mastra.js line 358. -/
def doneLine : String := "data: [DONE]\n\n"

/-- The `sendChunk` recursion of mastra.js lines 348-361: while `chunkIndex`
is within the chunk list, enqueue the encoded chunk and recurse on the next
index; otherwise enqueue the sentinel and close.  The value is the ordered
list of enqueued wire lines. -/
def runSendChunk (chunks : List Chunk) (i : Nat) : List String :=
  if h : i < chunks.length then
    sseLine (chunks.get ⟨i, h⟩) :: runSendChunk chunks (i + 1)
  else
    [doneLine]
termination_by chunks.length - i

/-- The ordered sequence of wire lines delivered by the stream returned from
`createStreamFromMastraResponse` (mastra.js lines 285-368). -/
def createStreamFromMastraResponse (response : GenerationResult) : List String :=
  runSendChunk (createChunks response) 0

/-- One typed part of a multimodal message content array (mastra.js lines
236-242): a text part, an image-reference part, or anything else (ignored). -/
inductive ContentPart where
  | text (t : String) : ContentPart
  | imageUrl (u : String) : ContentPart
  | other : ContentPart
deriving DecidableEq

/-- Message content: either a plain string or an array of typed parts. -/
inductive MessageContent where
  | text (s : String) : MessageContent
  | parts (ps : List ContentPart) : MessageContent
deriving DecidableEq

/-- One conversation message; `content` may be absent. -/
structure Message where
  role : String
  content : Option MessageContent
deriving DecidableEq

/-- The prompt-extraction block of mastra.js lines 230-248, applied to the last
message: returns the accumulated prompt text and the `hasImage` flag.  The
source computes these only for logging; they are kept for fidelity. -/
def extractPrompt (userMessage : Message) : String × Bool :=
  match userMessage.content with
  | none => ("", false)
  | some (.text t) => if t = "" then ("", false) else (t, false)
  | some (.parts ps) =>
      ps.foldl
        (fun acc p =>
          match p with
          | .text t => (acc.1 ++ t ++ " ", acc.2)
          | .imageUrl _ => (acc.1 ++ "[Screenshot provided] ", true)
          | .other => acc)
        ("", false)

/-- The working-memory template of mastra.js lines 119-142. -/
def studentProfileTemplate : String :=
  String.intercalate "\n"
    [ "# Student Profile"
    , ""
    , "## Personal Info"
    , "- Name:"
    , "- Email:"
    , "- Learning Goals:"
    , "- Experience Level:"
    , ""
    , "## Current Course Progress"
    , "- Active Course:"
    , "- Current Lesson/Step:"
    , "- Completed Lessons:"
    , "- Areas of Difficulty:"
    , ""
    , "## Learning Preferences"
    , "- Preferred Learning Style:"
    , "- Topics of Interest:"
    , "- Questions Asked:"
    , ""
    , "## Session Notes"
    , "- Last Topic Discussed:"
    , "- Outstanding Issues:"
    , "- Next Steps:"
    ] ++ "\n"

/-- The agent instruction text of mastra.js lines 159-198. -/
def instructionsText : String :=
  String.intercalate "\n"
    [ "You are a Teaching Assistant integrated into Halo, a desktop application that automatically captures and provides you with screenshots of the user\x27s screen."
    , ""
    , "IMPORTANT: You automatically receive screenshots with every user message - you do NOT need to ask for them!"
    , ""
    , "CORE CAPABILITIES:"
    , "1. **Screen Analysis**: You AUTOMATICALLY receive screenshots of the user\x27s screen with every message - analyze the visual content directly"
    , "2. **Interactive Courses**: Use MCP course tools when available to provide structured learning"
    , "3. **Memory & Progress**: Remember student information, progress, and learning preferences"
    , "4. **Context-Aware Help**: Provide assistance based on what\x27s currently visible on the user\x27s screen"
    , ""
    , "CRITICAL INSTRUCTIONS FOR MCP COURSES:"
    , "- When course tools are available and a user requests learning content:"
    , "  1. IMMEDIATELY use the available MCP course tools"
    , "  2. FOLLOW the course instructions EXACTLY as provided by the MCP tools"
    , "  3. Do NOT add your own interpretation or additional content to course material"
    , "  4. Present the course content EXACTLY as returned by the MCP tools"
    , "  5. If the MCP tool provides specific steps or actions, follow them precisely"
    , ""
    , "MEMORY USAGE:"
    , "- Always update working memory with student information (name, progress, preferences)"
    , "- Reference past conversations and learning progress when relevant"
    , "- Track course completion and areas where students need help"
    , "- Remember student questions and learning patterns"
    , ""
    , "SCREEN INTERACTION:"
    , "- You automatically receive a screenshot with every message - analyze it directly"
    , "- Describe what you see on the screen when asked"
    , "- Provide context-aware assistance based on the current screen content"
    , "- Help users understand what they\x27re seeing or how to accomplish tasks"
    , "- Connect screen content to learning opportunities when appropriate"
    , "- NEVER ask users to provide screenshots - you already have them!"
    , ""
    , "RESPONSE STYLE:"
    , "- Be helpful, friendly, and encouraging"
    , "- Provide clear, actionable guidance"
    , "- Ask clarifying questions when needed"
    , "- Adapt explanations to the user\x27s experience level"
    , "- Reference previous conversations and learning progress when relevant"
    , ""
    , "You are both a visual assistant for the current screen and a persistent learning companion. Remember: you automatically receive screenshots, so analyze them directly without asking!"
    ]

/-- The Memory instance built in mastra.js lines 106-153, recorded by its
configuration. -/
structure Memory where
  storageUrl : String
  vectorUrl : String
  embedderModel : String
  embedderApiKey : String
  workingMemoryEnabled : Bool
  workingMemoryScope : String
  workingMemoryTemplate : String
  semanticRecallTopK : Nat
  semanticRecallMessageRange : Nat
  semanticRecallScope : String
  lastMessages : Nat
deriving DecidableEq

/-- Memory construction (mastra.js lines 92-153).  `path.join` is modelled as
slash concatenation; the `fs.mkdirSync` of the parent directory is a
filesystem effect outside every claim and is not modelled. -/
def mkMemory (tmpdir : String) (apiKey : String) : Memory :=
  let memoryDbPath := tmpdir ++ "/halo-mastra/teaching-assistant-memory.db"
  { storageUrl := "file:" ++ memoryDbPath
  , vectorUrl := "file:" ++ memoryDbPath
  , embedderModel := "text-embedding-3-small"
  , embedderApiKey := apiKey
  , workingMemoryEnabled := true
  , workingMemoryScope := "resource"
  , workingMemoryTemplate := studentProfileTemplate
  , semanticRecallTopK := 5
  , semanticRecallMessageRange := 3
  , semanticRecallScope := "resource"
  , lastMessages := 15 }

/-- The agent object built by `new Agent(...)` in mastra.js lines 157-203.
`buildIndex` is not a source field: it records which `new Agent` construction
produced this value, modelling JavaScript object identity, so that a freshly
built handle is distinguishable from the handle it replaces (the testable
property in the spec phrases the same instrumentation as a rebuild counter). -/
structure Agent where
  name : String
  instructions : String
  modelId : String
  modelApiKey : String
  tools : List String
  memory : Memory
  buildIndex : Nat
deriving DecidableEq

/-- The module-level mutable variables of mastra.js lines 4-7, plus
`process.env.OPENAI_API_KEY` (written at line 65) and the ghost construction
counter backing `Agent.buildIndex`.  `mastraModules` and `mcpClient` hold
opaque singletons in the source, so only their presence is recorded. -/
structure MState where
  teachingAssistantAgent : Option Agent
  mastraModules : Bool
  mcpClient : Bool
  currentApiKey : Option String
  envOpenAIApiKey : Option String
  buildCount : Nat
deriving DecidableEq

/-- The state at process start: every cache empty. -/
def initialState : MState :=
  { teachingAssistantAgent := none
  , mastraModules := false
  , mcpClient := false
  , currentApiKey := none
  , envOpenAIApiKey := none
  , buildCount := 0 }

/-- Observable actions performed during `initializeTeachingAssistant`;
the returned trace records which build steps actually executed. -/
inductive Event where
  | moduleLoad : Event
  | mcpClientCreate : Event
  | toolFetch : Event
  | toolWarn (msg : String) : Event
  | memoryBuild : Event
  | agentBuild : Event
deriving DecidableEq

/-- Failures of `initializeTeachingAssistant` propagated to the caller.  In
the source the only failing awaited step whose error escapes the function is
the dynamic module import (the MCP failure is caught locally, and memory and
agent construction are plain object constructions). -/
inductive InitError where
  | dependencyLoadError : InitError
deriving DecidableEq

/-- The options record passed to `teachingAssistantAgent.generate` in
mastra.js lines 262-271, together with the agent the generation runs against. -/
structure GenInvocation where
  agent : Agent
  messages : List Message
  maxSteps : Nat
  resourceId : String
  threadId : String
  apiKey : String
deriving DecidableEq

/-- The external world: whether the dynamic module import succeeds, the
outcome of `mcpClient.getTools()`, `os.tmpdir()`, `Date.now()`, and the
outcome of the upstream agent generation call. -/
structure Env where
  moduleLoadOk : Bool
  mcpTools : Except String (List String)
  tmpdir : String
  now : Nat
  generate : GenInvocation → Except String GenerationResult

/-- The function `loadMastraModules` (mastra.js lines 10-43): return the cached module set
if present, otherwise import (which may fail, caching nothing). -/
def loadMastraModules (env : Env) (s : MState) :
    Except InitError (MState × List Event) :=
  if s.mastraModules then .ok (s, [])
  else if env.moduleLoadOk then .ok ({ s with mastraModules := true }, [Event.moduleLoad])
  else .error .dependencyLoadError

/-- The try-block of `initializeTeachingAssistant` (mastra.js lines 63-208):
set the environment variable, load modules, create the MCP client if absent,
fetch tools tolerating failure, build the memory and the agent, record the
credential. -/
def buildAgent (env : Env) (apiKey : String) (s : MState) :
    Except InitError (MState × Agent × List Event) :=
  match loadMastraModules env { s with envOpenAIApiKey := some apiKey } with
  | .error e => .error e
  | .ok (s2, loadEv) =>
      let clientEv : List Event := if s2.mcpClient then [] else [Event.mcpClientCreate]
      let s3 : MState := { s2 with mcpClient := true }
      let fetched : List String × List Event :=
        match env.mcpTools with
        | .ok ts => (ts, [Event.toolFetch])
        | .error msg => ([], [Event.toolFetch, Event.toolWarn msg])
      let agent : Agent :=
        { name := "Teaching Assistant"
        , instructions := instructionsText
        , modelId := "gpt-4o"
        , modelApiKey := apiKey
        , tools := fetched.1
        , memory := mkMemory env.tmpdir apiKey
        , buildIndex := s3.buildCount }
      .ok ({ s3 with teachingAssistantAgent := some agent
                   , currentApiKey := some apiKey
                   , buildCount := s3.buildCount + 1 }
          , agent
          , loadEv ++ clientEv ++ fetched.2 ++ [Event.memoryBuild, Event.agentBuild])

/-- The reset of mastra.js lines 52-56: when an agent is cached and the
credential changed, drop the cached handle and credential. -/
def resetIfKeyChanged (apiKey : String) (s : MState) : MState :=
  if s.teachingAssistantAgent ≠ none ∧ s.currentApiKey ≠ some apiKey
  then { s with teachingAssistantAgent := none, currentApiKey := none }
  else s

/-- The function `initializeTeachingAssistant` (mastra.js lines 48-214). -/
def initializeTeachingAssistant (env : Env) (apiKey : String) (s : MState) :
    Except InitError (MState × Agent × List Event) :=
  let s0 := resetIfKeyChanged apiKey s
  match s0.teachingAssistantAgent with
  | some agent =>
      if s0.currentApiKey = some apiKey then .ok (s0, agent, [])
      else buildAgent env apiKey s0
  | none => buildAgent env apiKey s0

/-- The caller-supplied options of `createMastraStream` (mastra.js line 219). -/
structure GenOptions where
  resourceId : Option String
  threadId : Option String
  maxSteps : Option Nat
deriving DecidableEq

/-- Failures of `createMastraStream`.  `notInitialized` is the explicit
`Teaching Assistant agent not initialized` error of line 222;
`undefinedLastMessage` models the TypeError the source raises reading
`.content` of `undefined` when the message list is empty; `missingApiKey` is
the explicit error of line 259; `generationFailed` propagates an upstream
generation error. -/
inductive StreamError where
  | notInitialized : StreamError
  | undefinedLastMessage : StreamError
  | missingApiKey : StreamError
  | generationFailed (msg : String) : StreamError
deriving DecidableEq

/-- The JavaScript `x || d` default for a possibly-absent string option:
an absent or empty string falls back to the default. -/
def jsOrDefault (o : Option String) (d : String) : String :=
  match o with
  | some v => if v = "" then d else v
  | none => d

/-- The JavaScript `x || d` default for a possibly-absent numeric option:
absent or zero falls back to the default. -/
def jsOrDefaultNat (o : Option Nat) (d : Nat) : Nat :=
  match o with
  | some v => if v = 0 then d else v
  | none => d

/-- The function `createMastraStream` (mastra.js lines 219-280): require a cached agent and
a cached credential, extract the prompt from the last message, default the
routing identifiers, invoke generation, and convert the response to the wire
stream.  The value on success is the generation invocation actually made plus
the ordered wire lines of the returned stream. -/
def createMastraStream (env : Env) (messages : List Message) (options : GenOptions)
    (s : MState) : Except StreamError (GenInvocation × List String) :=
  match s.teachingAssistantAgent with
  | none => .error .notInitialized
  | some agent =>
      match messages.getLast? with
      | none => .error .undefinedLastMessage
      | some userMessage =>
          let _promptAndImage := extractPrompt userMessage
          let resourceId := jsOrDefault options.resourceId "halo_user_default"
          let threadId := jsOrDefault options.threadId ("session_" ++ toString env.now)
          match s.currentApiKey with
          | none => .error .missingApiKey
          | some key =>
              let inv : GenInvocation :=
                { agent := agent
                , messages := messages
                , maxSteps := jsOrDefaultNat options.maxSteps 10
                , resourceId := resourceId
                , threadId := threadId
                , apiKey := key }
              match env.generate inv with
              | .error e => .error (.generationFailed e)
              | .ok response => .ok (inv, createStreamFromMastraResponse response)

/-- The dynamically-typed credential argument of `validateApiKey`: a string,
or any non-string value (null, undefined, number, object, ...). -/
inductive ApiKeyInput where
  | str (s : String) : ApiKeyInput
  | notAString : ApiKeyInput

/-- Outcome of the `fetch` to the models endpoint in `validateApiKey`:
a response with an HTTP status and the parsed `error.message` of the body when
present, or a thrown network error. -/
inductive FetchResult where
  | ok (status : Nat) (errMessage : Option String) : FetchResult
  | networkError : FetchResult
deriving DecidableEq

/-- JavaScript `s.startsWith(pre)`, expressed over the character lists (the
core `String.startsWith` is equivalent but does not evaluate inside the
kernel). -/
def strStartsWith (s pre : String) : Bool :=
  pre.data.isPrefixOf s.data

/-- The `\x7bsuccess, error?\x7d` object returned by `validateApiKey`. -/
structure ValidationResult where
  success : Bool
  error : Option String
deriving DecidableEq

/-- The static method `MastraProvider.validateApiKey` (mastra.js lines 374-397).  The second
component of the value records whether the network call was made. -/
def MastraProvider.validateApiKey (fetch : FetchResult) (apiKey : ApiKeyInput) :
    ValidationResult × Bool :=
  match apiKey with
  | .notAString => ({ success := false, error := some "Invalid OpenAI API key format." }, false)
  | .str s =>
      if s = "" ∨ ¬ (strStartsWith s "sk-") then
        ({ success := false, error := some "Invalid OpenAI API key format." }, false)
      else
        match fetch with
        | .networkError =>
            ({ success := false, error := some "A network error occurred during validation." }, true)
        | .ok status errMessage =>
            if 200 ≤ status ∧ status ≤ 299 then
              ({ success := true, error := none }, true)
            else
              ({ success := false
               , error := some (match errMessage with
                   | some m => m
                   | none => "Validation failed with status: " ++ toString status) }, true)

/-- The config accepted by `createStreamingLLM` (mastra.js line 403).  The
source destructures defaults `temperature = 0.7` and `maxTokens = 2048`, but
the bound values are never read afterwards, so the defaults are not applied
here. -/
structure LLMConfig where
  apiKey : String
  model : Option String
  temperature : Option Rat
  maxTokens : Option Nat
  resourceId : Option String
  threadId : Option String
  maxSteps : Option Nat

/-- Failures escaping `streamChat`: a failed lazy initialization or a failed
stream creation. -/
inductive ChatError where
  | initFailed (e : InitError) : ChatError
  | streamFailed (e : StreamError) : ChatError
deriving DecidableEq

/-- The `streamChat` closure returned by `createStreamingLLM` (mastra.js lines
405-417): initialize the agent only when no agent is cached, then create the
stream passing only `resourceId`, `threadId` and `maxSteps`.  The value is the
call outcome, the state after the call, and whether initialization ran. -/
def streamChat (cfg : LLMConfig) (env : Env) (s : MState) (messages : List Message) :
    Except ChatError (GenInvocation × List String) × MState × Bool :=
  match s.teachingAssistantAgent with
  | some _ =>
      (match createMastraStream env messages
          { resourceId := cfg.resourceId, threadId := cfg.threadId, maxSteps := cfg.maxSteps } s with
       | .error e => .error (.streamFailed e)
       | .ok v => .ok v
      , s, false)
  | none =>
      match initializeTeachingAssistant env cfg.apiKey s with
      | .error e => (.error (.initFailed e), s, true)
      | .ok (s1, _, _) =>
          (match createMastraStream env messages
              { resourceId := cfg.resourceId, threadId := cfg.threadId, maxSteps := cfg.maxSteps } s1 with
           | .error e => .error (.streamFailed e)
           | .ok v => .ok v
          , s1, true)

/-- The function `createStreamingLLM` (mastra.js lines 403-419). -/
def createStreamingLLM (cfg : LLMConfig) : Env → MState → List Message → Except ChatError (GenInvocation × List String) × MState × Bool :=
  streamChat cfg

/-! ### Supporting lemmas about the text chunking -/

theorem chunkText_nil : chunkText [] = [] := by
  rw [chunkText]
  simp

theorem chunkText_cons (l : List Char) (h : l ≠ []) :
    chunkText l = l.take 50 :: chunkText (l.drop 50) := by
  rw [chunkText]
  simp [h]

theorem chunkText_ne_nil (l : List Char) (h : l ≠ []) : chunkText l ≠ [] := by
  rw [chunkText_cons l h]
  simp

theorem chunkText_length (l : List Char) : (chunkText l).length = (l.length + 49) / 50 := by
  induction l using chunkText.induct with
  | case1 => simp [chunkText_nil]
  | case2 l hl ih =>
      rw [chunkText_cons l hl]
      have hpos : 0 < l.length := List.length_pos.mpr hl
      simp only [List.length_cons, ih, List.length_drop]
      omega

theorem chunkText_flatten (l : List Char) : (chunkText l).flatten = l := by
  induction l using chunkText.induct with
  | case1 => simp [chunkText_nil]
  | case2 l hl ih =>
      rw [chunkText_cons l hl]
      simp [ih]

theorem chunkText_mem_ne_nil (l : List Char) : ∀ c ∈ chunkText l, c ≠ [] := by
  induction l using chunkText.induct with
  | case1 => simp [chunkText_nil]
  | case2 l hl ih =>
      rw [chunkText_cons l hl]
      intro c hc
      rcases List.mem_cons.mp hc with h1 | h2
      · subst h1
        have hpos : 0 < l.length := List.length_pos.mpr hl
        intro htake
        have := congrArg List.length htake
        simp only [List.length_take, List.length_nil] at this
        omega
      · exact ih c h2

theorem chunkText_dropLast (l : List Char) : ∀ c ∈ (chunkText l).dropLast, c.length = 50 := by
  induction l using chunkText.induct with
  | case1 => simp [chunkText_nil]
  | case2 l hl ih =>
      rw [chunkText_cons l hl]
      by_cases hrest : l.drop 50 = []
      · simp [hrest, chunkText_nil]
      · rcases hcons : chunkText (l.drop 50) with _ | ⟨c0, cs⟩
        · exact absurd hcons (chunkText_ne_nil _ hrest)
        · rw [List.dropLast_cons₂]
          intro c hc
          rcases List.mem_cons.mp hc with h1 | h2
          · subst h1
            have hlen : 50 < l.length := by
              have hp := List.length_pos.mpr hrest
              simp only [List.length_drop] at hp
              omega
            simp only [List.length_take]
            omega
          · exact ih c (by rw [hcons]; exact h2)

theorem chunkText_getLast (l : List Char) (h : l ≠ []) :
    ∃ c, (chunkText l).getLast? = some c ∧
      c.length = if l.length % 50 = 0 then 50 else l.length % 50 := by
  induction l using chunkText.induct with
  | case1 => exact absurd rfl h
  | case2 l hl ih =>
      rw [chunkText_cons l hl]
      have hpos : 0 < l.length := List.length_pos.mpr hl
      by_cases hrest : l.drop 50 = []
      · have hle : l.length ≤ 50 := by
          have := congrArg List.length hrest
          simp only [List.length_drop, List.length_nil] at this
          omega
        refine ⟨l.take 50, ?_, ?_⟩
        · rw [hrest, chunkText_nil, List.getLast?_singleton]
        · simp only [List.length_take]
          split <;> omega
      · obtain ⟨c, hc, hclen⟩ := ih hrest
        have h50 : 50 < l.length := by
          have hp := List.length_pos.mpr hrest
          simp only [List.length_drop] at hp
          omega
        rcases hcons : chunkText (l.drop 50) with _ | ⟨c0, cs⟩
        · exact absurd hcons (chunkText_ne_nil _ hrest)
        · refine ⟨c, ?_, ?_⟩
          · rw [List.getLast?_cons_cons, ← hcons, hc]
          · rw [hclen]
            simp only [List.length_drop]
            split <;> split <;> omega

theorem dropLast_map {α β : Type} (f : α → β) (l : List α) :
    (l.map f).dropLast = l.dropLast.map f := by
  induction l with
  | nil => simp
  | cons a l ih => cases l <;> simp_all

theorem string_length_data (s : String) : s.length = s.data.length := rfl

theorem string_of_data_nil (s : String) (h : s.data = []) : s = "" := by
  cases s with
  | mk data => rw [show data = [] from h]

theorem string_mk_ne_empty (cs : List Char) (h : cs ≠ []) : String.mk cs ≠ "" := by
  intro hmk
  exact h (congrArg String.data hmk)

/-! ### Supporting lemmas about the assembled chunk list -/

theorem textChunks_content_ne_empty (r : GenerationResult) :
    ∀ c ∈ textChunks r, c.content ≠ "" := by
  intro c hc
  rcases hr : r.text with _ | t
  · simp [textChunks, hr] at hc
  · by_cases ht : t = ""
    · simp [textChunks, hr, ht] at hc
    · simp only [textChunks, hr, ht, if_false] at hc
      obtain ⟨cs, hcs, rfl⟩ := List.mem_map.mp hc
      exact string_mk_ne_empty cs (chunkText_mem_ne_nil t.data cs hcs)

theorem toolSummaryText_ne_empty (steps : List Step) : toolSummaryText steps ≠ "" := by
  intro h
  have hlen := congrArg String.length h
  rw [toolSummaryText, String.length_append] at hlen
  have h27 : ("\n\n**Learning Tools Used:**\n" : String).length = 27 := by decide
  have h0 : ("" : String).length = 0 := by decide
  omega

theorem toolSummaryChunks_content_ne_empty (r : GenerationResult) :
    ∀ c ∈ toolSummaryChunks r, c.content ≠ "" := by
  intro c hc
  rcases hr : r.steps with _ | steps
  · simp [toolSummaryChunks, hr] at hc
  · rcases hcond : (decide (steps.length > 0) && hasValidToolResults steps) with _ | _
    · simp [toolSummaryChunks, hr, hcond] at hc
    · simp only [toolSummaryChunks, hr, hcond, if_true] at hc
      rw [List.mem_singleton.mp hc]
      exact toolSummaryText_ne_empty steps

theorem sseLine_ne_doneLine (c : Chunk) : sseLine c ≠ doneLine := by
  intro h
  have hlen := congrArg String.length h
  rw [sseLine, encodeChunk, doneLine] at hlen
  simp only [String.length_append] at hlen
  have h1 : ("data: " : String).length = 6 := by decide
  have h2 : ("\x7b\"choices\":[\x7b\"delta\":\x7b\"content\":\"" : String).length = 33 := by decide
  have h3 : ("\"\x7d\x7d]\x7d" : String).length = 5 := by decide
  have h4 : ("\n\n" : String).length = 2 := by decide
  have h5 : ("data: [DONE]\n\n" : String).length = 14 := by decide
  omega

theorem runSendChunk_eq (chunks : List Chunk) (i : Nat) :
    runSendChunk chunks i = (chunks.drop i).map sseLine ++ [doneLine] := by
  have key : ∀ n j, chunks.length - j ≤ n →
      runSendChunk chunks j = (chunks.drop j).map sseLine ++ [doneLine] := by
    intro n
    induction n with
    | zero =>
        intro j hle
        have hnot : ¬ j < chunks.length := by omega
        rw [runSendChunk]
        simp only [hnot, dite_false]
        rw [List.drop_eq_nil_of_le (by omega)]
        simp
    | succ n ih =>
        intro j hle
        by_cases h : j < chunks.length
        · rw [runSendChunk]
          simp only [h, dite_true]
          rw [ih (j + 1) (by omega), List.drop_eq_getElem_cons h]
          simp only [List.map_cons, List.cons_append, List.get_eq_getElem]
        · rw [runSendChunk]
          simp only [h, dite_false]
          rw [List.drop_eq_nil_of_le (by omega)]
          simp
  exact key (chunks.length - i) i le_rfl

theorem createStream_eq (r : GenerationResult) :
    createStreamFromMastraResponse r = (createChunks r).map sseLine ++ [doneLine] := by
  rw [createStreamFromMastraResponse, runSendChunk_eq]
  simp

theorem hasValidToolResults_iff (steps : List Step) :
    hasValidToolResults steps = true ↔
      ∃ st ∈ steps, ∃ tc ∈ st.toolCalls.getD [], toolCallQualifies tc = true := by
  rw [hasValidToolResults]
  simp only [Bool.not_eq_true', List.isEmpty_eq_false]
  constructor
  · intro h
    rcases hq : qualifyingToolCalls steps with _ | ⟨tc, rest⟩
    · exact absurd hq h
    · have : tc ∈ qualifyingToolCalls steps := by rw [hq]; exact List.mem_cons_self tc rest
      obtain ⟨st, hst, htc⟩ := List.mem_flatMap.mp this
      obtain ⟨hmem, hqual⟩ := List.mem_filter.mp htc
      exact ⟨st, hst, tc, hmem, hqual⟩
  · rintro ⟨st, hst, tc, htc, hq⟩ hnil
    have : tc ∈ qualifyingToolCalls steps :=
      List.mem_flatMap.mpr ⟨st, hst, List.mem_filter.mpr ⟨htc, hq⟩⟩
    rw [hnil] at this
    exact absurd this (List.not_mem_nil tc)

/-! ### Claims C3, C4, C5 -/

/-- Claim C3 (amended): the stream emitter appends exactly one tool-summary
chunk when at least one ToolCall in the steps has a JavaScript-truthy name and
a JavaScript-truthy result (both present, name non-empty, result not
null/false/0/empty-string), and appends no tool-summary chunk otherwise.
Tool calls failing the truthiness test are omitted from the summary. -/
theorem mastra_C3_amended (r : GenerationResult) :
    ((∃ st ∈ r.steps.getD [], ∃ tc ∈ st.toolCalls.getD [], toolCallQualifies tc = true) →
        (toolSummaryChunks r).length = 1)
    ∧ ((¬ ∃ st ∈ r.steps.getD [], ∃ tc ∈ st.toolCalls.getD [], toolCallQualifies tc = true) →
        (toolSummaryChunks r).length = 0) := by
  rcases hr : r.steps with _ | steps
  · constructor
    · intro hex
      simp at hex
    · intro _
      simp [toolSummaryChunks, hr]
  · simp only [Option.getD_some]
    constructor
    · intro hex
      have hval : hasValidToolResults steps = true := (hasValidToolResults_iff steps).mpr hex
      have hpos : 0 < steps.length := by
        obtain ⟨st, hst, _⟩ := hex
        exact List.length_pos.mpr (List.ne_nil_of_mem hst)
      simp [toolSummaryChunks, hr, hval, hpos]
    · intro hnex
      have hval : hasValidToolResults steps = false := by
        rcases hb : hasValidToolResults steps with _ | _
        · rfl
        · exact absurd ((hasValidToolResults_iff steps).mp hb) hnex
      simp [toolSummaryChunks, hr, hval]

/-- A concrete qualifying tool call: present non-empty name, truthy result. -/
def c3QualCall : ToolCall :=
  { name := some "lookupCourse", result := some (JsonVal.str "ok") }

/-- Witness input for C3: a response with one qualifying tool call. -/
def c3QualResponse : GenerationResult :=
  { text := some "", steps := some [ { toolCalls := some [c3QualCall] } ] }

theorem mastra_C3_witness : (toolSummaryChunks c3QualResponse).length = 1 := by
  apply (mastra_C3_amended c3QualResponse).1
  exact ⟨{ toolCalls := some [c3QualCall] }, by simp [c3QualResponse],
    c3QualCall, by simp, by simp [c3QualCall, toolCallQualifies, jsTruthy]⟩

/-- A tool call with a name and a non-absent but JavaScript-falsy result. -/
def c3BadCall : ToolCall :=
  { name := some "lookupCourse", result := some (JsonVal.num 0) }

/-- Counterexample input for C3. -/
def c3Response : GenerationResult :=
  { text := some "", steps := some [ { toolCalls := some [c3BadCall] } ] }

theorem mastra_C3_counterexample :
    (∃ st ∈ c3Response.steps.getD [], ∃ tc ∈ st.toolCalls.getD [],
        tc.name = some "lookupCourse" ∧ tc.result.isSome = true)
    ∧ (toolSummaryChunks c3Response).length = 0 := by
  constructor
  · exact ⟨{ toolCalls := some [c3BadCall] }, by simp [c3Response],
      c3BadCall, by simp, by simp [c3BadCall], by simp [c3BadCall]⟩
  · rfl

/-- Claim C4: the emitter partitions the response text of length L into
content chunks of size 50 in order: it produces ceil(L/50) = (L+49)/50 text
chunks whose concatenation is the text, every chunk before the last has
length exactly 50, and the last chunk has length L mod 50, or 50 when L is a
positive multiple of 50. -/
theorem mastra_C4 (t : String) (steps : Option (List Step)) :
    (textChunks (GenerationResult.mk (some t) steps)).length = (t.length + 49) / 50
    ∧ ((textChunks (GenerationResult.mk (some t) steps)).map (fun c => c.content.data)).flatten
        = t.data
    ∧ (∀ c ∈ (textChunks (GenerationResult.mk (some t) steps)).dropLast, c.content.length = 50)
    ∧ (t.length % 50 = 0 → t.length ≠ 0 →
        ((textChunks (GenerationResult.mk (some t) steps)).getLast?).map
          (fun c => c.content.length) = some 50)
    ∧ (t.length % 50 ≠ 0 →
        ((textChunks (GenerationResult.mk (some t) steps)).getLast?).map
          (fun c => c.content.length) = some (t.length % 50)) := by
  by_cases ht : t = ""
  · subst ht
    have htc0 : textChunks (GenerationResult.mk (some "") steps) = [] := by
      simp [textChunks]
    refine ⟨by rw [htc0]; decide, by rw [htc0]; decide, by rw [htc0]; simp, ?_, ?_⟩
    · intro _ hne
      exact absurd rfl hne
    · intro hmod
      exact absurd rfl hmod
  · have hd : t.data ≠ [] := fun h => ht (string_of_data_nil t h)
    have htc : textChunks (GenerationResult.mk (some t) steps)
        = (chunkText t.data).map (fun cs => Chunk.mk (String.mk cs)) := by
      simp [textChunks, ht]
    refine ⟨?_, ?_, ?_, ?_, ?_⟩
    · rw [htc, List.length_map, chunkText_length, string_length_data]
    · rw [htc, List.map_map]
      have : ((fun c : Chunk => c.content.data) ∘ fun cs => Chunk.mk (String.mk cs))
          = fun cs => cs := rfl
      rw [this, List.map_id', chunkText_flatten]
    · rw [htc, dropLast_map]
      intro c hc
      obtain ⟨cs, hcs, rfl⟩ := List.mem_map.mp hc
      exact chunkText_dropLast t.data cs hcs
    · intro hmod hne
      obtain ⟨c, hlast, hclen⟩ := chunkText_getLast t.data hd
      rw [htc, List.getLast?_map, hlast]
      simp only [Option.map_some']
      have : c.length = 50 := by
        rw [hclen, if_pos (by rw [← string_length_data]; exact hmod)]
      simp [this]
    · intro hmod
      obtain ⟨c, hlast, hclen⟩ := chunkText_getLast t.data hd
      rw [htc, List.getLast?_map, hlast]
      simp only [Option.map_some']
      have : c.length = t.length % 50 := by
        rw [hclen, if_neg (by rw [← string_length_data]; exact hmod), string_length_data]
      simp [this]

/-- Witness for C4 at two concrete texts: length 5 (not a multiple of 50) and
length 100 (a positive multiple of 50). -/
theorem mastra_C4_witness :
    (textChunks (GenerationResult.mk (some "hello") none)).length = 1
    ∧ ((textChunks (GenerationResult.mk (some "hello") none)).getLast?).map
        (fun c => c.content.length) = some 5
    ∧ ((textChunks (GenerationResult.mk
        (some (String.mk (List.replicate 100 'a'))) none)).getLast?).map
        (fun c => c.content.length) = some 50 := by
  refine ⟨?_, ?_, ?_⟩
  · rw [(mastra_C4 "hello" none).1]
    decide
  · exact (mastra_C4 "hello" none).2.2.2.2 (by decide)
  · exact (mastra_C4 (String.mk (List.replicate 100 'a')) none).2.2.2.1 (by decide) (by decide)

/-- Claim C5: the delivered stream is the encoded chunk list followed by the
sentinel; the sentinel is the last delivered line and occurs exactly once (so
nothing follows it); the last data chunk is the single empty-content chunk,
which occurs exactly once in the chunk list. -/
theorem mastra_C5 (r : GenerationResult) :
    createStreamFromMastraResponse r = (createChunks r).map sseLine ++ [doneLine]
    ∧ (createStreamFromMastraResponse r).getLast? = some doneLine
    ∧ List.countP (fun line => line == doneLine) (createStreamFromMastraResponse r) = 1
    ∧ (createChunks r).getLast? = some (Chunk.mk "")
    ∧ List.countP (fun c => c.content == "") (createChunks r) = 1 := by
  refine ⟨createStream_eq r, ?_, ?_, ?_, ?_⟩
  · rw [createStream_eq, List.getLast?_concat]
  · rw [createStream_eq, List.countP_append]
    have h0 : List.countP (fun line => line == doneLine) ((createChunks r).map sseLine) = 0 := by
      rw [List.countP_eq_zero]
      intro line hline
      obtain ⟨c, _, rfl⟩ := List.mem_map.mp hline
      simpa using sseLine_ne_doneLine c
    rw [h0]
    simp
  · rw [createChunks, List.append_assoc, ← List.append_assoc (textChunks r)]
    rw [List.getLast?_concat]
  · rw [createChunks, List.countP_append, List.countP_append]
    have h1 : List.countP (fun c => c.content == "") (textChunks r) = 0 := by
      rw [List.countP_eq_zero]
      intro c hc
      simpa using textChunks_content_ne_empty r c hc
    have h2 : List.countP (fun c => c.content == "") (toolSummaryChunks r) = 0 := by
      rw [List.countP_eq_zero]
      intro c hc
      simpa using toolSummaryChunks_content_ne_empty r c hc
    rw [h1, h2]
    simp

/-- A benign concrete environment used by witnesses: module import succeeds,
tool provisioning yields no tools, generation yields a fixed small response. -/
def env0 : Env :=
  { moduleLoadOk := true
  , mcpTools := .ok []
  , tmpdir := "/tmp"
  , now := 0
  , generate := fun _ => .ok { text := some "ok", steps := none } }

/-! ### Supporting lemmas about the agent lifecycle -/

theorem loadMastraModules_ok_fields (env : Env) (s s2 : MState) (ev : List Event)
    (h : loadMastraModules env s = .ok (s2, ev)) :
    s2.mastraModules = true
    ∧ s2.teachingAssistantAgent = s.teachingAssistantAgent
    ∧ s2.currentApiKey = s.currentApiKey
    ∧ s2.mcpClient = s.mcpClient
    ∧ s2.envOpenAIApiKey = s.envOpenAIApiKey
    ∧ s2.buildCount = s.buildCount := by
  rw [loadMastraModules] at h
  split at h
  · rename_i hm
    simp only [Except.ok.injEq, Prod.mk.injEq] at h
    obtain ⟨hs, -⟩ := h
    subst hs
    exact ⟨hm, rfl, rfl, rfl, rfl, rfl⟩
  · split at h
    · simp only [Except.ok.injEq, Prod.mk.injEq] at h
      obtain ⟨hs, -⟩ := h
      subst hs
      simp
    · exact absurd h (by simp)

theorem buildAgent_ok_fields (env : Env) (k : String) (s s' : MState) (a : Agent)
    (tr : List Event) (h : buildAgent env k s = .ok (s', a, tr)) :
    s'.teachingAssistantAgent = some a
    ∧ s'.currentApiKey = some k
    ∧ s'.mastraModules = true
    ∧ a.buildIndex = s.buildCount
    ∧ s'.buildCount = s.buildCount + 1
    ∧ Event.agentBuild ∈ tr
    ∧ a.tools = (match env.mcpTools with | .ok ts => ts | .error _ => [])
    ∧ a.modelApiKey = k := by
  rw [buildAgent] at h
  rcases hload : loadMastraModules env { s with envOpenAIApiKey := some k } with e | ⟨s2, loadEv⟩
  · rw [hload] at h
    exact absurd h (by simp)
  · rw [hload] at h
    obtain ⟨hm, -, -, -, -, hbc⟩ := loadMastraModules_ok_fields _ _ _ _ hload
    rcases htools : env.mcpTools with msg | ts <;> rw [htools] at h <;>
      simp only [Except.ok.injEq, Prod.mk.injEq] at h <;>
      obtain ⟨hs, ha, htr⟩ := h <;> subst hs <;> subst ha <;> subst htr <;>
      refine ⟨rfl, rfl, by simp [hm], by simp [hbc], by simp [hbc], by simp, by simp, rfl⟩

theorem buildAgent_success (env : Env) (k : String) (s : MState)
    (h : s.mastraModules = true ∨ env.moduleLoadOk = true) :
    ∃ s' a tr, buildAgent env k s = .ok (s', a, tr)
      ∧ (∀ msg, env.mcpTools = .error msg → a.tools = [] ∧ Event.toolWarn msg ∈ tr) := by
  rw [buildAgent]
  have hok : ∃ s2 ev, loadMastraModules env { s with envOpenAIApiKey := some k } = .ok (s2, ev) := by
    rw [loadMastraModules]
    by_cases hm2 : s.mastraModules = true
    · simp only [hm2, if_true]
      exact ⟨_, _, rfl⟩
    · rcases h with hm | hl
      · exact absurd hm hm2
      · simp only [hm2, if_false, hl, if_true]
        exact ⟨_, _, rfl⟩
  obtain ⟨s2, ev, hload⟩ := hok
  rw [hload]
  rcases htools : env.mcpTools with msg | ts
  · refine ⟨_, _, _, rfl, ?_⟩
    intro m hmsg
    injection hmsg with hmm
    subst hmm
    exact ⟨rfl, by simp⟩
  · refine ⟨_, _, _, rfl, ?_⟩
    intro m hmsg
    exact absurd hmsg (by simp)

theorem resetIfKeyChanged_same (k : String) (s : MState) (hkey : s.currentApiKey = some k) :
    resetIfKeyChanged k s = s := by
  rw [resetIfKeyChanged, if_neg]
  rintro ⟨-, hne⟩
  exact hne hkey

theorem resetIfKeyChanged_no_agent (k : String) (s : MState)
    (hA : s.teachingAssistantAgent = none) :
    resetIfKeyChanged k s = s := by
  rw [resetIfKeyChanged, if_neg]
  rintro ⟨hne, -⟩
  exact hne hA

theorem init_ok_fields (env : Env) (k : String) (s s₁ : MState) (a : Agent) (tr : List Event)
    (h : initializeTeachingAssistant env k s = .ok (s₁, a, tr)) :
    s₁.teachingAssistantAgent = some a ∧ s₁.currentApiKey = some k := by
  rw [initializeTeachingAssistant] at h
  rcases hag : (resetIfKeyChanged k s).teachingAssistantAgent with _ | agent
  · rw [hag] at h
    have h' : buildAgent env k (resetIfKeyChanged k s) = .ok (s₁, a, tr) := h
    obtain ⟨f1, f2, -⟩ := buildAgent_ok_fields _ _ _ _ _ _ h'
    exact ⟨f1, f2⟩
  · rw [hag] at h
    have h' : (if (resetIfKeyChanged k s).currentApiKey = some k
        then (Except.ok ((resetIfKeyChanged k s), agent, ([] : List Event))
          : Except InitError (MState × Agent × List Event))
        else buildAgent env k (resetIfKeyChanged k s)) = .ok (s₁, a, tr) := h
    split at h'
    · rename_i hkey
      simp only [Except.ok.injEq, Prod.mk.injEq] at h'
      obtain ⟨hs, ha, -⟩ := h'
      subst hs
      subst ha
      exact ⟨hag, hkey⟩
    · obtain ⟨f1, f2, -⟩ := buildAgent_ok_fields _ _ _ _ _ _ h'
      exact ⟨f1, f2⟩

/-- The reachable-state invariant: a cached agent was built by an earlier
construction than the counter records, and implies the modules are cached. -/
def StateInv (s : MState) : Prop :=
  ∀ ag, s.teachingAssistantAgent = some ag →
    ag.buildIndex < s.buildCount ∧ s.mastraModules = true

theorem initialState_inv : StateInv initialState := by
  intro ag hag
  simp [initialState] at hag

theorem resetIfKeyChanged_inv (k : String) (s : MState) (h : StateInv s) :
    StateInv (resetIfKeyChanged k s) := by
  rw [resetIfKeyChanged]
  split
  · intro ag hag
    simp at hag
  · exact h

theorem buildAgent_inv (env : Env) (k : String) (s s' : MState) (a : Agent)
    (tr : List Event) (h : buildAgent env k s = .ok (s', a, tr)) : StateInv s' := by
  obtain ⟨hag, -, hm, hbi, hbc, -⟩ := buildAgent_ok_fields _ _ _ _ _ _ h
  intro ag hag2
  rw [hag] at hag2
  injection hag2 with he
  subst he
  exact ⟨by omega, hm⟩

theorem init_inv (env : Env) (k : String) (s s₁ : MState) (a : Agent) (tr : List Event)
    (hInv : StateInv s) (h : initializeTeachingAssistant env k s = .ok (s₁, a, tr)) :
    StateInv s₁ := by
  rw [initializeTeachingAssistant] at h
  rcases hag : (resetIfKeyChanged k s).teachingAssistantAgent with _ | agent
  · rw [hag] at h
    exact buildAgent_inv _ _ _ _ _ _ h
  · rw [hag] at h
    have h' : (if (resetIfKeyChanged k s).currentApiKey = some k
        then (Except.ok ((resetIfKeyChanged k s), agent, ([] : List Event))
          : Except InitError (MState × Agent × List Event))
        else buildAgent env k (resetIfKeyChanged k s)) = .ok (s₁, a, tr) := h
    split at h'
    · simp only [Except.ok.injEq, Prod.mk.injEq] at h'
      obtain ⟨hs, -, -⟩ := h'
      subst hs
      exact resetIfKeyChanged_inv k s hInv
    · exact buildAgent_inv _ _ _ _ _ _ h'

/-! ### Claims C1, C2, C6, C7 -/

/-- Claim C1: after a successful `initializeTeachingAssistant(c)`, a second
call with the same credential returns the identical cached agent handle and
the identical state, with an empty action trace: no module loading, MCP
client creation, tool provisioning, memory construction or agent construction
is executed (the environment of the second call is arbitrary, so nothing
external is even consulted). -/
theorem mastra_C1 (env env' : Env) (c : String) (s s₁ : MState) (a : Agent)
    (tr : List Event) (h : initializeTeachingAssistant env c s = .ok (s₁, a, tr)) :
    initializeTeachingAssistant env' c s₁ = .ok (s₁, a, []) := by
  obtain ⟨hag, hkey⟩ := init_ok_fields env c s s₁ a tr h
  rw [initializeTeachingAssistant]
  rw [resetIfKeyChanged_same c s₁ hkey]
  simp [hag, hkey]

theorem mastra_C1_witness :
    ∃ s₁ a tr, initializeTeachingAssistant env0 "sk-test" initialState = .ok (s₁, a, tr)
      ∧ initializeTeachingAssistant env0 "sk-test" s₁ = .ok (s₁, a, []) := by
  refine ⟨_, _, _, rfl, ?_⟩
  exact mastra_C1 env0 env0 "sk-test" initialState _ _ _ rfl

/-- Claim C2: from any reachable state, a successful initialization with
credential a followed by one with a different credential b succeeds, discards
the first handle in favour of a freshly built one (the two handles differ),
performs an agent construction, and records credential b. -/
theorem mastra_C2 (env₁ env₂ : Env) (ka kb : String) (s s₁ : MState) (a₁ : Agent)
    (tr₁ : List Event) (hInv : StateInv s)
    (h₁ : initializeTeachingAssistant env₁ ka s = .ok (s₁, a₁, tr₁))
    (hne : ka ≠ kb) :
    ∃ s₂ a₂ tr₂, initializeTeachingAssistant env₂ kb s₁ = .ok (s₂, a₂, tr₂)
      ∧ a₂ ≠ a₁
      ∧ s₂.currentApiKey = some kb
      ∧ s₂.teachingAssistantAgent = some a₂
      ∧ Event.agentBuild ∈ tr₂ := by
  obtain ⟨hag, hkey⟩ := init_ok_fields _ _ _ _ _ _ h₁
  have hInv₁ : StateInv s₁ := init_inv _ _ _ _ _ _ hInv h₁
  obtain ⟨hbi, hm⟩ := hInv₁ a₁ hag
  have hreset : resetIfKeyChanged kb s₁
      = { s₁ with teachingAssistantAgent := none, currentApiKey := none } := by
    rw [resetIfKeyChanged, if_pos]
    refine ⟨by rw [hag]; exact fun hx => Option.noConfusion hx, ?_⟩
    intro hx
    rw [hkey] at hx
    injection hx with h2
    exact hne h2
  obtain ⟨s₂, a₂, tr₂, hbuild, -⟩ := buildAgent_success env₂ kb
    { s₁ with teachingAssistantAgent := none, currentApiKey := none }
    (Or.inl (by simpa using hm))
  obtain ⟨f1, f2, -, fbi, -, fmem, -⟩ := buildAgent_ok_fields _ _ _ _ _ _ hbuild
  refine ⟨s₂, a₂, tr₂, ?_, ?_, f2, f1, fmem⟩
  · rw [initializeTeachingAssistant]
    rw [hreset]
    exact hbuild
  · intro heq
    rw [heq] at fbi
    simp at fbi
    omega

theorem mastra_C2_witness :
    ∃ s₁ a₁ tr₁ s₂ a₂ tr₂,
      initializeTeachingAssistant env0 "sk-alpha" initialState = .ok (s₁, a₁, tr₁)
      ∧ initializeTeachingAssistant env0 "sk-beta" s₁ = .ok (s₂, a₂, tr₂)
      ∧ a₂ ≠ a₁ ∧ s₂.currentApiKey = some "sk-beta" := by
  obtain ⟨s₂, a₂, tr₂, hok, hdiff, hkey2, -, -⟩ :=
    mastra_C2 env0 env0 "sk-alpha" "sk-beta" initialState _ _ _ initialState_inv rfl
      (by decide)
  exact ⟨_, _, _, s₂, a₂, tr₂, rfl, hok, hdiff, hkey2⟩

/-- Claim C6: when tool provisioning fails, initialization still succeeds,
the agent is constructed with an empty ToolSet, and the failure is recorded
as a warning in the trace rather than propagated as an error. -/
theorem mastra_C6 (env : Env) (apiKey msg : String) (s : MState)
    (hA : s.teachingAssistantAgent = none)
    (hM : s.mastraModules = true ∨ env.moduleLoadOk = true)
    (hT : env.mcpTools = .error msg) :
    ∃ s' a tr, initializeTeachingAssistant env apiKey s = .ok (s', a, tr)
      ∧ a.tools = [] ∧ Event.toolWarn msg ∈ tr := by
  obtain ⟨s', a, tr, hbuild, hwarn⟩ := buildAgent_success env apiKey s hM
  obtain ⟨ht, hmem⟩ := hwarn msg hT
  refine ⟨s', a, tr, ?_, ht, hmem⟩
  rw [initializeTeachingAssistant]
  rw [resetIfKeyChanged_no_agent apiKey s hA]
  rw [hA]
  exact hbuild

/-- Witness environment for C6: MCP tool provisioning throws. -/
def envToolFail : Env :=
  { moduleLoadOk := true
  , mcpTools := .error "ECONNREFUSED"
  , tmpdir := "/tmp"
  , now := 0
  , generate := fun _ => .ok { text := some "ok", steps := none } }

theorem mastra_C6_witness :
    ∃ s' a tr, initializeTeachingAssistant envToolFail "sk-key" initialState = .ok (s', a, tr)
      ∧ a.tools = [] ∧ Event.toolWarn "ECONNREFUSED" ∈ tr :=
  mastra_C6 envToolFail "sk-key" "ECONNREFUSED" initialState rfl (Or.inr rfl) rfl

/-- Claim C7: `createMastraStream` with no cached agent fails with the
explicit not-initialized error: no generation invocation and no stream are
produced, and the failure is not the undefined-access TypeError. -/
theorem mastra_C7 (env : Env) (messages : List Message) (options : GenOptions) (s : MState)
    (h : s.teachingAssistantAgent = none) :
    createMastraStream env messages options s = .error .notInitialized := by
  rw [createMastraStream, h]

theorem mastra_C7_witness :
    createMastraStream env0 [] { resourceId := none, threadId := none, maxSteps := none }
      initialState = .error .notInitialized :=
  mastra_C7 env0 [] { resourceId := none, threadId := none, maxSteps := none }
    initialState rfl

/-! ### Claims C8, C9, C10 -/

/-- A malformed credential in the sense of mastra.js line 376: empty, not a
string, or not bearing the `sk-` prefix. -/
def JsMalformedKey (input : ApiKeyInput) : Prop :=
  input = .notAString ∨ ∃ s, input = .str s ∧ (s = "" ∨ strStartsWith s "sk-" = false)

/-- Claim C8: a malformed credential yields a structured failure without any
network call; a well-formed credential whose live check raises a network
error yields a structured failure with the generic network-error message
(returned, never thrown). -/
theorem mastra_C8 (fetch : FetchResult) (input : ApiKeyInput) :
    (JsMalformedKey input →
        MastraProvider.validateApiKey fetch input
          = ({ success := false, error := some "Invalid OpenAI API key format." }, false))
    ∧ (∀ s, input = .str s → s ≠ "" → strStartsWith s "sk-" = true → fetch = .networkError →
        MastraProvider.validateApiKey fetch input
          = ({ success := false, error := some "A network error occurred during validation." },
              true)) := by
  constructor
  · rintro (rfl | ⟨s, rfl, hbad⟩)
    · rfl
    · have hcond : s = "" ∨ ¬ (strStartsWith s "sk-") = true := by
        rcases hbad with h | h
        · exact Or.inl h
        · exact Or.inr (by simp [h])
      simp only [MastraProvider.validateApiKey]
      rw [if_pos hcond]
  · rintro s rfl hne hpre rfl
    have hcond : ¬ (s = "" ∨ ¬ (strStartsWith s "sk-") = true) := by
      simp [hne, hpre]
    simp only [MastraProvider.validateApiKey]
    rw [if_neg hcond]

theorem mastra_C8_witness :
    MastraProvider.validateApiKey .networkError (.str "oops")
      = ({ success := false, error := some "Invalid OpenAI API key format." }, false)
    ∧ MastraProvider.validateApiKey .networkError (.str "sk-abc")
      = ({ success := false, error := some "A network error occurred during validation." },
          true) :=
  ⟨(mastra_C8 .networkError (.str "oops")).1 (Or.inr ⟨"oops", rfl, Or.inr (by decide)⟩),
   (mastra_C8 .networkError (.str "sk-abc")).2 "sk-abc" rfl (by decide) (by decide) rfl⟩

theorem createMastraStream_ok_fields (env : Env) (messages : List Message)
    (options : GenOptions) (s : MState) (inv : GenInvocation) (lines : List String)
    (h : createMastraStream env messages options s = .ok (inv, lines)) :
    s.teachingAssistantAgent = some inv.agent ∧ s.currentApiKey = some inv.apiKey := by
  simp only [createMastraStream] at h
  split at h
  · exact absurd h (by simp)
  · rename_i ag hag
    split at h
    · exact absurd h (by simp)
    · split at h
      · exact absurd h (by simp)
      · rename_i key hkey
        split at h
        · exact absurd h (by simp)
        · simp only [Except.ok.injEq, Prod.mk.injEq] at h
          obtain ⟨hinv, -⟩ := h
          subst hinv
          exact ⟨hag, hkey⟩

/-- Claim C9: when an agent handle is cached, `streamChat` ignores the
configured credential entirely: the outcome is identical for any two
configured credentials, no initialization runs, and any generation that does
run uses the cached agent and the cached credential. -/
theorem mastra_C9 (cfg : LLMConfig) (k₁ k₂ : String) (env : Env) (s : MState)
    (messages : List Message) (a : Agent)
    (hA : s.teachingAssistantAgent = some a) :
    streamChat { cfg with apiKey := k₁ } env s messages
      = streamChat { cfg with apiKey := k₂ } env s messages
    ∧ (streamChat { cfg with apiKey := k₁ } env s messages).2.2 = false
    ∧ (∀ inv lines s' b,
        streamChat { cfg with apiKey := k₁ } env s messages = (.ok (inv, lines), s', b)
        → inv.agent = a ∧ s.currentApiKey = some inv.apiKey) := by
  refine ⟨by simp [streamChat, hA], by simp [streamChat, hA], ?_⟩
  intro inv lines s' b h
  simp only [streamChat, hA] at h
  rcases hcs : createMastraStream env messages
      { resourceId := cfg.resourceId, threadId := cfg.threadId, maxSteps := cfg.maxSteps } s
    with e | v
  · rw [hcs] at h
    simp at h
  · rw [hcs] at h
    simp only [Prod.mk.injEq, Except.ok.injEq] at h
    obtain ⟨hv, -, -⟩ := h
    rw [hv] at hcs
    obtain ⟨g1, g2⟩ := createMastraStream_ok_fields _ _ _ _ _ _ hcs
    rw [hA] at g1
    injection g1 with g1
    exact ⟨g1.symm, g2⟩

/-- A benign concrete message and config for the facade witnesses. -/
def msg0 : Message := { role := "user", content := some (.text "hi") }

def baseCfg : LLMConfig :=
  { apiKey := ""
  , model := none
  , temperature := none
  , maxTokens := none
  , resourceId := none
  , threadId := none
  , maxSteps := none }

theorem mastra_C9_witness :
    ∃ s₁ a tr, initializeTeachingAssistant env0 "sk-alpha" initialState = .ok (s₁, a, tr)
      ∧ streamChat { baseCfg with apiKey := "sk-alpha" } env0 s₁ [msg0]
          = streamChat { baseCfg with apiKey := "sk-OTHER" } env0 s₁ [msg0]
      ∧ (streamChat { baseCfg with apiKey := "sk-alpha" } env0 s₁ [msg0]).2.2 = false := by
  have hinit : ∃ s₁ a tr,
      initializeTeachingAssistant env0 "sk-alpha" initialState = .ok (s₁, a, tr) :=
    ⟨_, _, _, rfl⟩
  obtain ⟨s₁, a, tr, h₁⟩ := hinit
  obtain ⟨hA, -⟩ := init_ok_fields _ _ _ _ _ _ h₁
  have h := mastra_C9 baseCfg "sk-alpha" "sk-OTHER" env0 s₁ [msg0] a hA
  exact ⟨s₁, a, tr, h₁, h.1, h.2.1⟩

/-- Claim C10: the config options `model`, `temperature` and `maxTokens` have
no effect on `streamChat`: for any two configs differing only in those
fields, the call outcome (generation invocation, emitted chunk sequence,
resulting state, initialization flag) is identical. -/
theorem mastra_C10 (cfg : LLMConfig) (m₁ m₂ : Option String) (t₁ t₂ : Option Rat)
    (x₁ x₂ : Option Nat) (env : Env) (s : MState) (messages : List Message) :
    streamChat { cfg with model := m₁, temperature := t₁, maxTokens := x₁ } env s messages
      = streamChat { cfg with model := m₂, temperature := t₂, maxTokens := x₂ } env s messages :=
  rfl

end Halo
